import Mathlib

/-!
A shallow embedding of the dmfUSD / dmfEUR value-backed token ledger
(`src/lib/web3/config.ts`, Solidity contracts `dmfUSD` and `dmfEUR`).

The two contracts are line-for-line identical in all logic touched here
(constants, pricing, fees, refund, dividend accounting, classifier); they
differ only in the backing asset's name and in how the deposit arrives
(native value push vs. ERC-20 pull).  One embedding therefore covers both;
field and function names follow the dmfUSD instance.

Modelling conventions:
* `uint256` values are `Nat`.  Solidity's checked arithmetic reverts on
  wrap-around; every completed execution therefore agrees with the ℕ
  semantics.  The two `unchecked` subtraction blocks of the source are
  modelled with the explicit wrapping subtraction `wsub`.  The checked
  subtraction in `_handleRefund`'s circulating-supply computation is guarded
  by an explicit underflow error, mirroring the revert.
* Reverts roll the whole transaction back, so each state-mutating operation
  is a function `... → Except Err ChainState`: an `error` result is exactly
  the EVM's "no state change occurred".
* Addresses are `Nat`; `0` is the zero address and `1` is `address(this)`.
* The classifier's `staticcall` probes are modelled by an `Env` record
  giving, per address, the code-size and the success of each probed
  signature (success here means "call succeeded and, where the source checks
  it, returned 32 bytes").  Probes are read-only; `Env` is fixed.
* The outgoing backing-asset transfer at the end of a refund (native `call`
  / `safeTransfer`) is assumed to succeed; its failure would revert the
  whole refund, which the `Except` model already covers.
-/

namespace DMF

/-- `2^256`, the modulus of the EVM's 256-bit word arithmetic. -/
def WORD : Nat := 2 ^ 256

/-- Wrapping subtraction, as performed inside the source's `unchecked`
blocks (`tokensToUser`, `netAmount`, `tokensForRefund`). -/
def wsub (a b : Nat) : Nat := if b ≤ a then a - b else WORD + a - b

/-- Pointwise update of a `Nat`-valued account map. -/
def upd (f : Nat → Nat) (a v : Nat) : Nat → Nat := fun x => if x = a then v else f x

/-- Pointwise update of a `Bool`-valued account map. -/
def updB (f : Nat → Bool) (a : Nat) (v : Bool) : Nat → Bool := fun x => if x = a then v else f x

/-- The zero address. -/
def zeroAddr : Nat := 0

/-- `address(this)`, the ledger contract's own address. -/
def contractAddr : Nat := 1

/-- `TOTAL_SUPPLY = 100 billion tokens * 10^6` (6 decimals). -/
def TOTAL_SUPPLY : Nat := 100000000000 * 1000000

/-- `BURNING_LIMIT = TOTAL_SUPPLY / 5` (20% of the minted supply). -/
def BURNING_LIMIT : Nat := TOTAL_SUPPLY / 5

/-- `MINIMUM_PURCHASE_USDC = 1e5` (0.1 units, 6 decimals); dmfEUR's
`MINIMUM_PURCHASE_EURC` is the same value. -/
def MINIMUM_PURCHASE : Nat := 100000

/-- `BASE_PRICE = 1e6`: one backing unit per token at launch. -/
def BASE_PRICE : Nat := 1000000

/-- `PRECISION_DIVISOR = 10000` (basis points denominator). -/
def PRECISION_DIVISOR : Nat := 10000

/-- `MAGNITUDE = 2^128`, the dividend accumulator's fixed-point scale. -/
def MAGNITUDE : Nat := 2 ^ 128

def BUY_DEV_FEE_BPS : Nat := 5
def BUY_RESERVE_FEE_BPS : Nat := 10
def BUY_REFLECTION_FEE_BPS : Nat := 10
def REFUND_DEV_FEE_BPS : Nat := 5
def REFUND_REFLECTION_FEE_BPS : Nat := 5
def TRANSFER_DEV_FEE_BPS : Nat := 5
def TRANSFER_REFLECTION_FEE_BPS : Nat := 10
def TRANSFER_RESERVE_FEE_BPS : Nat := 10

/-- The read-only probe environment seen by the classifier.  For each
address it records the code size and, per probed signature, whether the
`staticcall` succeeds (including, for `token0()`/`token1()`, that the
returndata is 32 bytes) and what address value it decodes to. -/
structure Env where
  codeLen : Nat → Nat
  token0Ok : Nat → Bool
  token0Val : Nat → Nat
  token1Ok : Nat → Bool
  token1Val : Nat → Nat
  factoryOk : Nat → Bool
  getReservesOk : Nat → Bool
  getPairOk : Nat → Bool
  swapOk : Nat → Bool
  supplyOk : Nat → Bool
  depositOk : Nat → Bool
  sendToChainOk : Nat → Bool

/-- `isContract` (source lines 783-814): the broad automated-contract
classification.  A pure view: it consults no cache and mutates nothing. -/
def isContract (env : Env) (addr : Nat) : Bool :=
  if env.codeLen addr = 0 then false
  else if env.token0Ok addr && env.token1Ok addr then true
  else if env.factoryOk addr then true
  else if env.getReservesOk addr then true
  else if env.getPairOk addr then true
  else if env.swapOk addr then true
  else if env.supplyOk addr then true
  else if env.depositOk addr then true
  else if env.sendToChainOk addr then true
  else false

/-- Number of `staticcall` probes issued by one evaluation of `isContract`:
`token0()` and `token1()` are always both issued, then the remaining
signatures are tried in order until one succeeds. -/
def isContractProbes (env : Env) (addr : Nat) : Nat :=
  if env.codeLen addr = 0 then 0
  else 2 +
    if env.token0Ok addr && env.token1Ok addr then 0
    else 1 +
      if env.factoryOk addr then 0
      else 1 +
        if env.getReservesOk addr then 0
        else 1 +
          if env.getPairOk addr then 0
          else 1 +
            if env.swapOk addr then 0
            else 1 +
              if env.supplyOk addr then 0
              else 1 +
                if env.depositOk addr then 0
                else 1

/-- The ledger's mutable storage (`dmfUSD` state variables; `dmfEUR` has
the same fields with `eurcReserves` in place of `usdcReserves`). -/
structure ChainState where
  totalBurned : Nat
  tokensSold : Nat
  usdcReserves : Nat
  bal : Nat → Nat
  magnifiedDividendPerShare : Nat
  totalDividendsDistributed : Nat
  lastDividendPerShare : Nat → Nat
  accumulatedDividends : Nat → Nat
  excludedFromFee : Nat → Bool
  liquidityPairCache : Nat → Bool
  notLiquidityPairCache : Nat → Bool
  devAddress : Nat

/-- `isLiquidityPair` (source lines 381-402): the narrow trading-pair
sub-classification.  Stateful: a resolved probe writes one of the two
caches; a cached address is answered without probing. -/
def isLiquidityPair (env : Env) (s : ChainState) (addr : Nat) : Bool × ChainState :=
  if env.codeLen addr = 0 then (false, s)
  else if s.liquidityPairCache addr then (true, s)
  else if s.notLiquidityPairCache addr then (false, s)
  else if env.token0Ok addr && env.token1Ok addr then
    if (env.token0Val addr = contractAddr ∨ env.token1Val addr = contractAddr)
        ∧ env.token0Val addr ≠ env.token1Val addr then
      (true, { s with liquidityPairCache := updB s.liquidityPairCache addr true })
    else (false, { s with notLiquidityPairCache := updB s.notLiquidityPairCache addr true })
  else (false, { s with notLiquidityPairCache := updB s.notLiquidityPairCache addr true })

/-- Number of `staticcall` probes issued by one call of `isLiquidityPair`:
zero when the address is codeless or already cached, otherwise the two
token-identity probes. -/
def isLiquidityPairProbes (env : Env) (s : ChainState) (addr : Nat) : Nat :=
  if env.codeLen addr = 0 then 0
  else if s.liquidityPairCache addr then 0
  else if s.notLiquidityPairCache addr then 0
  else 2

/-- `totalSupply()` override: `TOTAL_SUPPLY - totalBurned`. -/
def totalSupplyOf (s : ChainState) : Nat := TOTAL_SUPPLY - s.totalBurned

/-- `getCirculatingSupply()`: total supply minus the ledger's own balance. -/
def circulatingOf (s : ChainState) : Nat := totalSupplyOf s - s.bal contractAddr

/-- Errors; each aborts (reverts) the whole operation. -/
inductive Err where
  | zeroAddress
  | zeroAmount
  | insufficientBalance
  | insufficientBacking
  | noCirculation
  | underflow

/-- OpenZeppelin `ERC20._transfer` (invoked as `super._transfer`): rejects
zero addresses and insufficient balance, then moves the amount. -/
def ozTransfer (s : ChainState) (src dst amount : Nat) : Except Err ChainState :=
  if src = zeroAddr then .error .zeroAddress
  else if dst = zeroAddr then .error .zeroAddress
  else if s.bal src < amount then .error .insufficientBalance
  else
    let b1 := upd s.bal src (s.bal src - amount)
    .ok { s with bal := upd b1 dst (b1 dst + amount) }

/-- OpenZeppelin `ERC20._burn` of the ledger's own tokens.  (Its internal
`_totalSupply` bookkeeping is dead state here: the contract overrides
`totalSupply()` to `TOTAL_SUPPLY - totalBurned`.) -/
def ozBurn (s : ChainState) (src amount : Nat) : Except Err ChainState :=
  if src = zeroAddr then .error .zeroAddress
  else if s.bal src < amount then .error .insufficientBalance
  else .ok { s with bal := upd s.bal src (s.bal src - amount) }

/-- `_distributeDividends` (source lines 605-617). -/
def distributeDividends (s : ChainState) (amount : Nat) : ChainState :=
  if amount = 0 then s
  else if circulatingOf s = 0 then s
  else
    { s with
      magnifiedDividendPerShare :=
        s.magnifiedDividendPerShare + amount * MAGNITUDE / circulatingOf s,
      totalDividendsDistributed := s.totalDividendsDistributed + amount }

/-- The accumulate-if-positive block shared (verbatim in the source) by
`_updateUserDividendTracking`, `_buy`, `_handleRefund` and
`claimDividends`: credit `bbb * (current - last) / MAGNITUDE` when the
delta and the resulting amount are positive.  Does not move the snapshot. -/
def accrueOnBalance (s : ChainState) (user bbb : Nat) : ChainState :=
  if 0 < bbb ∧ s.lastDividendPerShare user < s.magnifiedDividendPerShare then
    let nd := bbb * (s.magnifiedDividendPerShare - s.lastDividendPerShare user) / MAGNITUDE
    if 0 < nd then
      { s with accumulatedDividends := upd s.accumulatedDividends user (s.accumulatedDividends user + nd) }
    else s
  else s

/-- `_updateUserDividendTracking` (source lines 626-647): no-op for
automated contracts; otherwise accrue on the current balance and
unconditionally move the snapshot to the current accumulator. -/
def updateUserDividendTracking (env : Env) (s : ChainState) (user : Nat) : ChainState :=
  if isContract env user then s
  else
    let s1 := accrueOnBalance s user (s.bal user)
    { s1 with lastDividendPerShare := upd s1.lastDividendPerShare user s.magnifiedDividendPerShare }

/-- `pendingDividends` view (source lines 690-706). -/
def pendingDividends (env : Env) (s : ChainState) (user : Nat) : Nat :=
  if isContract env user then 0
  else
    let ub := s.bal user
    if ub = 0 then s.accumulatedDividends user
    else if s.lastDividendPerShare user < s.magnifiedDividendPerShare then
      s.accumulatedDividends user
        + ub * (s.magnifiedDividendPerShare - s.lastDividendPerShare user) / MAGNITUDE
    else s.accumulatedDividends user

/-- `_getTokensForUsdc` (source lines 754-776); `_getTokensForEurc`
(lines 1515-1537) is identical.  `balanceBefore` is the pre-deposit
reserve.  (When the markup-adjusted price floors to zero the source's
division panics and the transaction reverts; ℕ division yields 0 tokens
here, and the caller `_buy` then reverts on `tokensToPurchase = 0`, so the
observable outcome — no state change — agrees.) -/
def getTokensForUsdc (s : ChainState) (usdcAmount balanceBefore : Nat) : Nat :=
  if usdcAmount = 0 then 0
  else
    let availableToSell := s.bal contractAddr
    if availableToSell = 0 then 0
    else
      let circulating := totalSupplyOf s - availableToSell
      let pricePerToken :=
        if circulating = 0 ∨ balanceBefore = 0 then BASE_PRICE
        else balanceBefore * 1000000 / circulating * 10010 / PRECISION_DIVISOR
      min (usdcAmount * 1000000 / pricePerToken) availableToSell

/-- Modelled from the spec's own words (for the refinement claim C1, §4.2):
"if circulating supply outside the contract is zero, or the pre-deposit
reserve is zero, price = 1 unit backing per 1 unit token.  Otherwise
`refundPrice = reserveBeforeDeposit × 1e6 / circulatingOutsideContract`;
buy price = `refundPrice × 1.0010`.  Tokens issued = `depositAmount × 1e6 /
buyPrice`, capped at the ledger's own token balance." -/
def specTokensForDeposit (circulatingOutside reserveBefore deposit cap : Nat) : Nat :=
  let price :=
    if circulatingOutside = 0 ∨ reserveBefore = 0 then BASE_PRICE
    else reserveBefore * 1000000 / circulatingOutside * 10010 / 10000
  min (deposit * 1000000 / price) cap

/-- Claim C1: the buy-pricing function agrees everywhere with the spec's
formula — base price when the outside circulation or the pre-deposit
reserve is zero, otherwise the 0.10%-marked-up redemption price, with the
issued tokens `deposit × 1e6 / price` capped at the ledger's own remaining
balance. -/
theorem buy_pricing_matches_spec (s : ChainState) (usdcAmount balanceBefore : Nat) :
    getTokensForUsdc s usdcAmount balanceBefore
      = specTokensForDeposit (totalSupplyOf s - s.bal contractAddr) balanceBefore
          usdcAmount (s.bal contractAddr) := by
  unfold getTokensForUsdc specTokensForDeposit PRECISION_DIVISOR
  by_cases h0 : usdcAmount = 0
  · simp [h0]
  · by_cases h1 : s.bal contractAddr = 0
    · simp [h0, h1]
    · simp [h0, h1]

/-- `super._transfer` guarded by a `!= 0` amount test, as the source writes
at several call sites (`if (x != 0) { super._transfer(...); }`). -/
def transferIfNonzero (s : ChainState) (src dst amount : Nat) : Except Err ChainState :=
  if amount ≠ 0 then ozTransfer s src dst amount else .ok s

/-- Refund dev fee: `Math.mulDiv(tokenAmount, REFUND_DEV_FEE_BPS, 10000)`. -/
def refundDevFee (amount : Nat) : Nat := amount * REFUND_DEV_FEE_BPS / 10000

/-- Refund reflection fee: `Math.mulDiv(tokenAmount, REFUND_REFLECTION_FEE_BPS, 10000)`. -/
def refundReflectionFee (amount : Nat) : Nat := amount * REFUND_REFLECTION_FEE_BPS / 10000

/-- Refund burn fee: 75 / 100000 of the gross while `totalBurned <
BURNING_LIMIT`, 0 afterwards (source line 559). -/
def refundBurnFee (tb amount : Nat) : Nat :=
  if tb < BURNING_LIMIT then amount * 75 / 100000 else 0

/-- Refund reserve fee: 75 / 100000 of the gross while `totalBurned <
BURNING_LIMIT`, 150 / 100000 afterwards (source line 560). -/
def refundReserveFee (tb amount : Nat) : Nat :=
  if tb < BURNING_LIMIT then amount * 75 / 100000 else amount * 150 / 100000

/-- `tokensForRefund`: the gross minus the four refund fee shares, computed
in the source inside an `unchecked` block (source lines 561-564). -/
def tokensForRefund (tb amount : Nat) : Nat :=
  wsub (wsub (wsub (wsub amount (refundDevFee amount)) (refundReflectionFee amount))
    (refundBurnFee tb amount)) (refundReserveFee tb amount)

/-- The sender-side accrual block at the top of `_handleRefund` (source
lines 535-553): for a non-contract sender with a positive balance, accrue
and move the snapshot; note the snapshot moves only inside the
positive-balance branch. -/
def refundSenderAccrual (env : Env) (s : ChainState) (sender : Nat) : ChainState :=
  if isContract env sender then s
  else if s.bal sender = 0 then s
  else
    let s1 := accrueOnBalance s sender (s.bal sender)
    { s1 with lastDividendPerShare := upd s1.lastDividendPerShare sender s.magnifiedDividendPerShare }

/-- The bounded-burn step of `_handleRefund` (source lines 583-592): while
under the limit, burn the fee capped to the remaining headroom. -/
def refundBurnStep (s : ChainState) (tb burnFeeTokens : Nat) : Except Err ChainState :=
  if burnFeeTokens ≠ 0 ∧ tb < BURNING_LIMIT then
    let remainingToBurn := BURNING_LIMIT - tb
    let bft := if remainingToBurn < burnFeeTokens then remainingToBurn else burnFeeTokens
    if bft ≠ 0 then
      match ozBurn s contractAddr bft with
      | .error e => .error e
      | .ok s3 => .ok { s3 with totalBurned := s3.totalBurned + bft }
    else .ok s
  else .ok s

/-- `_handleRefund` (source lines 524-603; dmfEUR lines 1287-1364 are
identical).  The caller (`_update`) has already moved the gross
`tokenAmount` into the ledger's own balance, so `s.bal contractAddr`
includes it.  Returns the post-state and the backing paid out.  The
checked subtractions in the circulating-supply computation are guarded by
explicit underflow errors, mirroring the Solidity revert. -/
def handleRefund (env : Env) (s : ChainState) (sender tokenAmount : Nat) :
    Except Err (ChainState × Nat) :=
  if tokenAmount = 0 then .error .zeroAmount
  else if tokenAmount < MINIMUM_PURCHASE then .error .insufficientBalance
  else
    let s1 := refundSenderAccrual env s sender
    let tb := s1.totalBurned
    let devFeeTokens := refundDevFee tokenAmount
    let reflectionFeeTokens := refundReflectionFee tokenAmount
    let burnFeeTokens := refundBurnFee tb tokenAmount
    let contractBalance := s1.bal contractAddr
    if TOTAL_SUPPLY < tb then .error .underflow
    else if TOTAL_SUPPLY - tb < contractBalance then .error .underflow
    else
      let currentCirculatingSupply := TOTAL_SUPPLY - tb - contractBalance + tokenAmount
      if currentCirculatingSupply = 0 then .error .noCirculation
      else
        let effectiveBacking := s1.usdcReserves * 999 / 1000
        let usdcToUser := tokensForRefund tb tokenAmount * effectiveBacking / currentCirculatingSupply
        if s1.usdcReserves < usdcToUser then .error .insufficientBacking
        else
          match transferIfNonzero s1 contractAddr s1.devAddress devFeeTokens with
          | .error e => .error e
          | .ok s2 =>
            match refundBurnStep s2 tb burnFeeTokens with
            | .error e => .error e
            | .ok s4 =>
              let s5 := distributeDividends s4 reflectionFeeTokens
              .ok ({ s5 with usdcReserves := s5.usdcReserves - usdcToUser }, usdcToUser)

/-- The short-circuited evaluation of `(isContract(from) &&
isLiquidityPair(from)) || (isContract(to) && isLiquidityPair(to))`
(source line 412): each `isLiquidityPair` call may write the pair caches. -/
def dexProbe (env : Env) (s : ChainState) (src dst : Nat) : Bool × ChainState :=
  let r1 := if isContract env src then isLiquidityPair env s src else (false, s)
  if r1.1 then r1
  else if isContract env dst then isLiquidityPair env r1.2 dst else (false, r1.2)

/-- `_handleTaxedTransfer` (source lines 409-448). -/
def handleTaxedTransfer (env : Env) (s : ChainState) (src dst amount : Nat) :
    Except Err ChainState :=
  if s.bal src < amount then .error .insufficientBalance
  else
    let r := dexProbe env s src dst
    let sA := r.2
    if r.1 then ozTransfer sA src dst amount
    else
      let devFee := amount * TRANSFER_DEV_FEE_BPS / 10000
      let reflectionFee := amount * TRANSFER_REFLECTION_FEE_BPS / 10000
      let reserveFee := amount * TRANSFER_RESERVE_FEE_BPS / 10000
      let netAmount := wsub (wsub (wsub amount devFee) reflectionFee) reserveFee
      match ozTransfer sA src contractAddr amount with
      | .error e => .error e
      | .ok s1 =>
        let s2 := distributeDividends s1 reflectionFee
        match transferIfNonzero s2 contractAddr dst netAmount with
        | .error e => .error e
        | .ok s3 => transferIfNonzero s3 contractAddr s3.devAddress devFee

/-- `_update` (source lines 362-379): validity checks, then dispatch to the
refund path (transfers to the ledger itself), the fee-exempt path, or the
taxed path. -/
def updateBalances (env : Env) (s : ChainState) (src dst amount : Nat) :
    Except Err ChainState :=
  if src = zeroAddr then .error .zeroAddress
  else if dst = zeroAddr then .error .zeroAddress
  else if amount = 0 then .error .zeroAmount
  else if dst = contractAddr then
    match ozTransfer s src dst amount with
    | .error e => .error e
    | .ok s1 =>
      match handleRefund env s1 src amount with
      | .error e => .error e
      | .ok p => .ok p.1
  else if s.excludedFromFee src || s.excludedFromFee dst then ozTransfer s src dst amount
  else handleTaxedTransfer env s src dst amount

/-- `_transfer` override (source lines 349-360): accrue dividend tracking
for both non-contract parties before any balance moves, then `_update`. -/
def transferOp (env : Env) (s : ChainState) (src dst amount : Nat) :
    Except Err ChainState :=
  let s1 := if src ≠ zeroAddr ∧ ¬isContract env src then updateUserDividendTracking env s src else s
  let s2 := if dst ≠ zeroAddr ∧ ¬isContract env dst then updateUserDividendTracking env s1 dst else s1
  updateBalances env s2 src dst amount

/-- `_buy`'s conditional accrual on the buyer's pre-buy balance (source
lines 472-489 and 495-510): skipped for automated contracts. -/
def buyAccrue (env : Env) (s : ChainState) (buyer bbb : Nat) : ChainState :=
  if isContract env buyer then s else accrueOnBalance s buyer bbb

/-- `_buy`'s snapshot move (source lines 512-516): mark a non-contract
buyer as caught up to the current accumulator. -/
def buySnap (env : Env) (s : ChainState) (buyer : Nat) : ChainState :=
  if isContract env buyer then s
  else { s with lastDividendPerShare := upd s.lastDividendPerShare buyer s.magnifiedDividendPerShare }

/-- `_buy` (source lines 450-522).  Entered with the deposit already added
to the reserves; `balanceBefore` recovers the pre-deposit reserve. -/
def buyInternal (env : Env) (s : ChainState) (buyer usdcAmount : Nat) :
    Except Err ChainState :=
  let balanceBefore := s.usdcReserves - usdcAmount
  let tokensToPurchase := getTokensForUsdc s usdcAmount balanceBefore
  if tokensToPurchase = 0 then .error .insufficientBacking
  else if TOTAL_SUPPLY < s.tokensSold + tokensToPurchase then .error .insufficientBalance
  else
    let devFee := tokensToPurchase * BUY_DEV_FEE_BPS / 10000
    let reserveFee := tokensToPurchase * BUY_RESERVE_FEE_BPS / 10000
    let reflectionFee := tokensToPurchase * BUY_REFLECTION_FEE_BPS / 10000
    let tokensToUser := wsub (wsub (wsub tokensToPurchase devFee) reserveFee) reflectionFee
    let s1 := { s with tokensSold := s.tokensSold + tokensToPurchase }
    -- the source sets `buyerBalanceBefore = 0` for automated contracts, but
    -- that value is only ever read inside the two `!isContract(buyer)`
    -- blocks (`buyAccrue` ignores it otherwise), so reading the balance
    -- unconditionally is observationally identical
    let buyerBalanceBefore := s1.bal buyer
    let s2 := buyAccrue env s1 buyer buyerBalanceBefore
    let s3 := distributeDividends s2 reflectionFee
    let s4 := buyAccrue env s3 buyer buyerBalanceBefore
    let s5 := buySnap env s4 buyer
    match ozTransfer s5 contractAddr s5.devAddress devFee with
    | .error e => .error e
    | .ok s6 => ozTransfer s6 contractAddr buyer tokensToUser

/-- Public `buy()` of dmfUSD (source lines 337-347): convert the native
value from 18 to 6 decimals, enforce the minimum, add the deposit to the
reserves, then `_buy`.  (dmfEUR's `buy(eurcAmount)`, lines 1100-1110, is
the same with the 6-decimal amount passed directly and pulled via
`safeTransferFrom`.) -/
def buyOp (env : Env) (s : ChainState) (buyer msgValue : Nat) : Except Err ChainState :=
  let usdcAmount := msgValue / 1000000000000
  if usdcAmount < MINIMUM_PURCHASE then .error .insufficientBacking
  else buyInternal env { s with usdcReserves := s.usdcReserves + usdcAmount } buyer usdcAmount

/-- `claimDividends` (source lines 653-683): silent success for automated
contracts; otherwise accrue, move the snapshot, and pay the accumulated
dividends out of the ledger's own balance. -/
def claimDividendsOp (env : Env) (s : ChainState) (user : Nat) : Except Err ChainState :=
  if isContract env user then .ok s
  else
    let s2 := updateUserDividendTracking env s user
    let totalAccumulated := s2.accumulatedDividends user
    if 0 < totalAccumulated then
      ozTransfer { s2 with accumulatedDividends := upd s2.accumulatedDividends user 0 }
        contractAddr user totalAccumulated
    else .ok s2

/-- `setDevAddress` (source lines 818-825); the `onlyOwner` gate is access
control outside the state modelled here. -/
def setDevAddressOp (s : ChainState) (newDev : Nat) : Except Err ChainState :=
  if newDev = zeroAddr then .error .zeroAddress
  else .ok { s with
    excludedFromFee := updB (updB s.excludedFromFee s.devAddress false) newDev true,
    devAddress := newDev }

/-- `excludeFromFee` (source lines 827-831). -/
def excludeFromFeeOp (s : ChainState) (account : Nat) (isExcluded : Bool) :
    Except Err ChainState :=
  if account = zeroAddr then .error .zeroAddress
  else .ok { s with excludedFromFee := updB s.excludedFromFee account isExcluded }

/-- The ledger's public mutating operations.  A refund is a `transfer`
whose destination is `contractAddr`. -/
inductive Op where
  | buy (buyer msgValue : Nat)
  | transfer (src dst amount : Nat)
  | claim (user : Nat)
  | setDev (newDev : Nat)
  | setFeeExclusion (account : Nat) (isExcluded : Bool)

/-- One serialized transaction: either all of its effects apply (`ok`) or
none (`error`, the revert). -/
def step (env : Env) (s : ChainState) : Op → Except Err ChainState
  | .buy buyer msgValue => buyOp env s buyer msgValue
  | .transfer src dst amount => transferOp env s src dst amount
  | .claim user => claimDividendsOp env s user
  | .setDev newDev => setDevAddressOp s newDev
  | .setFeeExclusion account isExcluded => excludeFromFeeOp s account isExcluded

/-- The constructor's post-state (source lines 269-315): full supply minted
to the ledger itself, empty bookkeeping, the ledger / owner / dev address
fee-exempt. -/
def initState (owner dev : Nat) : ChainState where
  totalBurned := 0
  tokensSold := 0
  usdcReserves := 0
  bal := upd (fun _ => 0) contractAddr TOTAL_SUPPLY
  magnifiedDividendPerShare := 0
  totalDividendsDistributed := 0
  lastDividendPerShare := fun _ => 0
  accumulatedDividends := fun _ => 0
  excludedFromFee := updB (updB (updB (fun _ => false) contractAddr true) owner true) dev true
  liquidityPairCache := fun _ => false
  notLiquidityPairCache := fun _ => false
  devAddress := dev

/-- States reachable from some deployment by successful transactions. -/
inductive Reachable (env : Env) : ChainState → Prop where
  | init (owner dev : Nat) : Reachable env (initState owner dev)
  | next (s : ChainState) (op : Op) (s' : ChainState) :
      Reachable env s → step env s op = .ok s' → Reachable env s'

/-- The post-state of a transaction, the pre-state if it reverted. -/
def okState (r : Except Err ChainState) (dflt : ChainState) : ChainState :=
  match r with
  | .ok s => s
  | .error _ => dflt

/-- The post-state of a refund, the pre-state if it reverted. -/
def refundState (r : Except Err (ChainState × Nat)) (dflt : ChainState) : ChainState :=
  match r with
  | .ok p => p.1
  | .error _ => dflt

/-- The backing paid out by a refund, 0 if it reverted. -/
def refundPaid (r : Except Err (ChainState × Nat)) : Nat :=
  match r with
  | .ok p => p.2
  | .error _ => 0

/-- A probe environment in which every address is an ordinary wallet
(no code, all probes fail). -/
def walletEnv : Env where
  codeLen := fun _ => 0
  token0Ok := fun _ => false
  token0Val := fun _ => 0
  token1Ok := fun _ => false
  token1Val := fun _ => 0
  factoryOk := fun _ => false
  getReservesOk := fun _ => false
  getPairOk := fun _ => false
  swapOk := fun _ => false
  supplyOk := fun _ => false
  depositOk := fun _ => false
  sendToChainOk := fun _ => false

/-- A probe environment in which address 9 is a trading-pair contract for
this ledger (`token0()` returns the ledger's address, `token1()` a distinct
one) and every other address is a wallet. -/
def pairEnv : Env where
  codeLen := fun a => if a = 9 then 1 else 0
  token0Ok := fun a => a == 9
  token0Val := fun _ => contractAddr
  token1Ok := fun a => a == 9
  token1Val := fun _ => 99
  factoryOk := fun _ => false
  getReservesOk := fun _ => false
  getPairOk := fun _ => false
  swapOk := fun _ => false
  supplyOk := fun _ => false
  depositOk := fun _ => false
  sendToChainOk := fun _ => false


/-- A mid-life ledger state used to exhibit the dividend-ordering flaw:
the ledger holds all but 4×10^12 units; wallets 4 and 6 hold 2×10^12 each;
wallet 7 holds nothing and has no dividend history. -/
def taxedTransferState : ChainState :=
  { initState 2 3 with
    bal := upd (upd (upd (fun _ => 0) contractAddr (TOTAL_SUPPLY - 4 * 10 ^ 12)) 4 (2 * 10 ^ 12)) 6 (2 * 10 ^ 12) }

/-- A post-receipt refund state: the ledger has just received a gross of
10^6 tokens from wallet 4 (its balance already includes them); 2×10^12
units circulate outside counting that gross; reserves are 10^12. -/
def refundReadyState : ChainState :=
  { initState 2 3 with
    bal := upd (fun _ => 0) contractAddr (TOTAL_SUPPLY - 2 * 10 ^ 12 + 10 ^ 6),
    usdcReserves := 10 ^ 12 }

/-- A state one refund away from the burn limit: `totalBurned` is 100 units
below `BURNING_LIMIT`, so a standard refund burn fee overshoots the
headroom and must be capped. -/
def burnCapState : ChainState :=
  { initState 2 3 with
    totalBurned := BURNING_LIMIT - 100,
    bal := upd (fun _ => 0) contractAddr (TOTAL_SUPPLY - (BURNING_LIMIT - 100) - 2 * 10 ^ 12),
    usdcReserves := 10 ^ 12 }

/-- A state in which the burn limit has been reached exactly. -/
def atLimitState : ChainState :=
  { initState 2 3 with
    totalBurned := BURNING_LIMIT,
    bal := upd (fun _ => 0) contractAddr (TOTAL_SUPPLY - BURNING_LIMIT - 2 * 10 ^ 12),
    usdcReserves := 10 ^ 12 }

/-- A state in which address 9 is already positively cached as a trading
pair. -/
def cachedPairState : ChainState :=
  { initState 2 3 with liquidityPairCache := updB (fun _ => false) 9 true }

/-- A state in which address 9 has a positive stored accumulated-dividend
amount. -/
def accumState : ChainState :=
  { initState 2 3 with accumulatedDividends := upd (fun _ => 0) 9 5 }

/-- Agreement on every field the pair caches do not own: the classifier
probes may only write `liquidityPairCache` / `notLiquidityPairCache`. -/
def CoreEq (s t : ChainState) : Prop :=
  t.totalBurned = s.totalBurned ∧ t.tokensSold = s.tokensSold
    ∧ t.usdcReserves = s.usdcReserves ∧ t.bal = s.bal
    ∧ t.magnifiedDividendPerShare = s.magnifiedDividendPerShare
    ∧ t.devAddress = s.devAddress ∧ t.excludedFromFee = s.excludedFromFee

section FrameLemmas

variable {env : Env} {s s2 : ChainState} {u b a n src dst : Nat}

theorem wsub_of_le (h : b ≤ a) : wsub a b = a - b := by
  unfold wsub
  rw [if_pos h]

@[simp] theorem accrue_totalBurned : (accrueOnBalance s u b).totalBurned = s.totalBurned := by
  unfold accrueOnBalance
  split
  · dsimp only
    split <;> rfl
  · rfl

@[simp] theorem accrue_tokensSold : (accrueOnBalance s u b).tokensSold = s.tokensSold := by
  unfold accrueOnBalance
  split
  · dsimp only
    split <;> rfl
  · rfl

@[simp] theorem accrue_usdcReserves : (accrueOnBalance s u b).usdcReserves = s.usdcReserves := by
  unfold accrueOnBalance
  split
  · dsimp only
    split <;> rfl
  · rfl

@[simp] theorem accrue_bal : (accrueOnBalance s u b).bal = s.bal := by
  unfold accrueOnBalance
  split
  · dsimp only
    split <;> rfl
  · rfl

@[simp] theorem accrue_magnified :
    (accrueOnBalance s u b).magnifiedDividendPerShare = s.magnifiedDividendPerShare := by
  unfold accrueOnBalance
  split
  · dsimp only
    split <;> rfl
  · rfl

@[simp] theorem accrue_totalDD :
    (accrueOnBalance s u b).totalDividendsDistributed = s.totalDividendsDistributed := by
  unfold accrueOnBalance
  split
  · dsimp only
    split <;> rfl
  · rfl

@[simp] theorem accrue_lastDPS :
    (accrueOnBalance s u b).lastDividendPerShare = s.lastDividendPerShare := by
  unfold accrueOnBalance
  split
  · dsimp only
    split <;> rfl
  · rfl

@[simp] theorem accrue_excluded : (accrueOnBalance s u b).excludedFromFee = s.excludedFromFee := by
  unfold accrueOnBalance
  split
  · dsimp only
    split <;> rfl
  · rfl

@[simp] theorem accrue_devAddress : (accrueOnBalance s u b).devAddress = s.devAddress := by
  unfold accrueOnBalance
  split
  · dsimp only
    split <;> rfl
  · rfl

@[simp] theorem tracking_totalBurned :
    (updateUserDividendTracking env s u).totalBurned = s.totalBurned := by
  unfold updateUserDividendTracking
  split <;> simp

@[simp] theorem tracking_tokensSold :
    (updateUserDividendTracking env s u).tokensSold = s.tokensSold := by
  unfold updateUserDividendTracking
  split <;> simp

@[simp] theorem tracking_usdcReserves :
    (updateUserDividendTracking env s u).usdcReserves = s.usdcReserves := by
  unfold updateUserDividendTracking
  split <;> simp

@[simp] theorem tracking_bal : (updateUserDividendTracking env s u).bal = s.bal := by
  unfold updateUserDividendTracking
  split <;> simp

@[simp] theorem tracking_magnified :
    (updateUserDividendTracking env s u).magnifiedDividendPerShare
      = s.magnifiedDividendPerShare := by
  unfold updateUserDividendTracking
  split <;> simp

@[simp] theorem tracking_excluded :
    (updateUserDividendTracking env s u).excludedFromFee = s.excludedFromFee := by
  unfold updateUserDividendTracking
  split <;> simp

@[simp] theorem tracking_devAddress :
    (updateUserDividendTracking env s u).devAddress = s.devAddress := by
  unfold updateUserDividendTracking
  split <;> simp

@[simp] theorem refundAccrual_totalBurned :
    (refundSenderAccrual env s u).totalBurned = s.totalBurned := by
  unfold refundSenderAccrual
  split
  · rfl
  · split <;> simp

@[simp] theorem refundAccrual_usdcReserves :
    (refundSenderAccrual env s u).usdcReserves = s.usdcReserves := by
  unfold refundSenderAccrual
  split
  · rfl
  · split <;> simp

@[simp] theorem refundAccrual_bal : (refundSenderAccrual env s u).bal = s.bal := by
  unfold refundSenderAccrual
  split
  · rfl
  · split <;> simp

@[simp] theorem refundAccrual_magnified :
    (refundSenderAccrual env s u).magnifiedDividendPerShare = s.magnifiedDividendPerShare := by
  unfold refundSenderAccrual
  split
  · rfl
  · split <;> simp

@[simp] theorem refundAccrual_devAddress :
    (refundSenderAccrual env s u).devAddress = s.devAddress := by
  unfold refundSenderAccrual
  split
  · rfl
  · split <;> simp

@[simp] theorem distribute_totalBurned : (distributeDividends s a).totalBurned = s.totalBurned := by
  unfold distributeDividends
  split
  · rfl
  · split <;> rfl

@[simp] theorem distribute_usdcReserves :
    (distributeDividends s a).usdcReserves = s.usdcReserves := by
  unfold distributeDividends
  split
  · rfl
  · split <;> rfl

@[simp] theorem distribute_bal : (distributeDividends s a).bal = s.bal := by
  unfold distributeDividends
  split
  · rfl
  · split <;> rfl

@[simp] theorem distribute_devAddress : (distributeDividends s a).devAddress = s.devAddress := by
  unfold distributeDividends
  split
  · rfl
  · split <;> rfl

@[simp] theorem distribute_tokensSold : (distributeDividends s a).tokensSold = s.tokensSold := by
  unfold distributeDividends
  split
  · rfl
  · split <;> rfl

@[simp] theorem distribute_excluded :
    (distributeDividends s a).excludedFromFee = s.excludedFromFee := by
  unfold distributeDividends
  split
  · rfl
  · split <;> rfl

theorem distribute_magnified_le :
    s.magnifiedDividendPerShare ≤ (distributeDividends s a).magnifiedDividendPerShare := by
  unfold distributeDividends
  split
  · exact Nat.le_refl _
  · split
    · exact Nat.le_refl _
    · exact Nat.le_add_right _ _

theorem ozTransfer_ok_frame (h : ozTransfer s src dst n = .ok s2) :
    s2.totalBurned = s.totalBurned ∧ s2.tokensSold = s.tokensSold
      ∧ s2.usdcReserves = s.usdcReserves
      ∧ s2.magnifiedDividendPerShare = s.magnifiedDividendPerShare
      ∧ s2.devAddress = s.devAddress
      ∧ s2.excludedFromFee = s.excludedFromFee := by
  unfold ozTransfer at h
  split at h
  · exact absurd h (by simp)
  · split at h
    · exact absurd h (by simp)
    · split at h
      · exact absurd h (by simp)
      · cases h
        exact ⟨rfl, rfl, rfl, rfl, rfl, rfl⟩

theorem ozTransfer_ok_bal (h : ozTransfer s src dst n = .ok s2) :
    s2.bal = upd (upd s.bal src (s.bal src - n)) dst
      (upd s.bal src (s.bal src - n) dst + n) := by
  unfold ozTransfer at h
  split at h
  · exact absurd h (by simp)
  · split at h
    · exact absurd h (by simp)
    · split at h
      · exact absurd h (by simp)
      · cases h
        rfl

theorem transferIfNonzero_ok_frame (h : transferIfNonzero s src dst n = .ok s2) :
    s2.totalBurned = s.totalBurned ∧ s2.tokensSold = s.tokensSold
      ∧ s2.usdcReserves = s.usdcReserves
      ∧ s2.magnifiedDividendPerShare = s.magnifiedDividendPerShare
      ∧ s2.devAddress = s.devAddress
      ∧ s2.excludedFromFee = s.excludedFromFee := by
  unfold transferIfNonzero at h
  split at h
  · exact ozTransfer_ok_frame h
  · cases h
    exact ⟨rfl, rfl, rfl, rfl, rfl, rfl⟩

theorem ozBurn_ok_frame (h : ozBurn s src n = .ok s2) :
    s2.totalBurned = s.totalBurned ∧ s2.usdcReserves = s.usdcReserves
      ∧ s2.magnifiedDividendPerShare = s.magnifiedDividendPerShare
      ∧ s2.devAddress = s.devAddress := by
  unfold ozBurn at h
  split at h
  · exact absurd h (by simp)
  · split at h
    · exact absurd h (by simp)
    · cases h
      exact ⟨rfl, rfl, rfl, rfl⟩

theorem coreEq_rfl : CoreEq s s := ⟨rfl, rfl, rfl, rfl, rfl, rfl, rfl⟩

theorem coreEq_trans {s t r : ChainState} (h1 : CoreEq s t) (h2 : CoreEq t r) : CoreEq s r := by
  obtain ⟨a1, a2, a3, a4, a5, a6, a7⟩ := h1
  obtain ⟨b1, b2, b3, b4, b5, b6, b7⟩ := h2
  exact ⟨b1.trans a1, b2.trans a2, b3.trans a3, b4.trans a4, b5.trans a5, b6.trans a6, b7.trans a7⟩

theorem isLiquidityPair_core : CoreEq s (isLiquidityPair env s a).2 := by
  unfold isLiquidityPair
  split
  · exact coreEq_rfl
  · split
    · exact coreEq_rfl
    · split
      · exact coreEq_rfl
      · split
        · split <;> exact coreEq_rfl
        · exact coreEq_rfl

theorem dexProbe_core : CoreEq s (dexProbe env s src dst).2 := by
  unfold dexProbe
  dsimp only
  by_cases h1 : isContract env src
  · simp only [h1, if_true]
    by_cases hp : (isLiquidityPair env s src).1
    · simp only [hp, if_true]
      exact isLiquidityPair_core
    · simp only [hp, if_false]
      by_cases h2 : isContract env dst
      · simp only [h2, if_true]
        exact coreEq_trans isLiquidityPair_core isLiquidityPair_core
      · simp only [h2, if_false]
        exact isLiquidityPair_core
  · simp only [h1, if_false]
    by_cases h2 : isContract env dst
    · simp only [h2, if_true]
      exact isLiquidityPair_core
    · simp only [h2, if_false]
      exact coreEq_rfl

theorem refundBurnStep_ok_frame (h : refundBurnStep s u b = .ok s2) :
    s2.usdcReserves = s.usdcReserves
      ∧ s2.magnifiedDividendPerShare = s.magnifiedDividendPerShare
      ∧ s2.devAddress = s.devAddress
      ∧ s2.totalBurned = s.totalBurned
          + (if b ≠ 0 ∧ u < BURNING_LIMIT then min (BURNING_LIMIT - u) b else 0) := by
  unfold refundBurnStep at h
  by_cases hc : b ≠ 0 ∧ u < BURNING_LIMIT
  · rw [if_pos hc] at h
    dsimp only at h
    by_cases hlt : BURNING_LIMIT - u < b
    · rw [if_pos hlt] at h
      by_cases hz : BURNING_LIMIT - u ≠ 0
      · rw [if_pos hz] at h
        cases hoz : ozBurn s contractAddr (BURNING_LIMIT - u) with
        | error e =>
          rw [hoz] at h
          exact absurd h (by simp)
        | ok s3 =>
          rw [hoz] at h
          cases h
          obtain ⟨hb1, hb2, hb3, hb4⟩ := ozBurn_ok_frame hoz
          refine ⟨hb2, hb3, hb4, ?_⟩
          dsimp only
          rw [hb1, if_pos hc, Nat.min_def]
          split <;> omega
      · rw [if_neg hz] at h
        cases h
        refine ⟨rfl, rfl, rfl, ?_⟩
        rw [if_pos hc, Nat.min_def]
        split <;> omega
    · rw [if_neg hlt] at h
      by_cases hz : b ≠ 0
      · rw [if_pos hz] at h
        cases hoz : ozBurn s contractAddr b with
        | error e =>
          rw [hoz] at h
          exact absurd h (by simp)
        | ok s3 =>
          rw [hoz] at h
          cases h
          obtain ⟨hb1, hb2, hb3, hb4⟩ := ozBurn_ok_frame hoz
          refine ⟨hb2, hb3, hb4, ?_⟩
          dsimp only
          rw [hb1, if_pos hc, Nat.min_def]
          split <;> omega
      · rw [if_neg hz] at h
        cases h
        refine ⟨rfl, rfl, rfl, ?_⟩
        rw [if_pos hc, Nat.min_def]
        split <;> omega
  · rw [if_neg hc] at h
    cases h
    exact ⟨rfl, rfl, rfl, by rw [if_neg hc]; omega⟩

@[simp] theorem buyAccrue_totalBurned :
    (buyAccrue env s u b).totalBurned = s.totalBurned := by
  unfold buyAccrue
  split <;> simp

@[simp] theorem buyAccrue_tokensSold : (buyAccrue env s u b).tokensSold = s.tokensSold := by
  unfold buyAccrue
  split <;> simp

@[simp] theorem buyAccrue_usdcReserves :
    (buyAccrue env s u b).usdcReserves = s.usdcReserves := by
  unfold buyAccrue
  split <;> simp

@[simp] theorem buyAccrue_bal : (buyAccrue env s u b).bal = s.bal := by
  unfold buyAccrue
  split <;> simp

@[simp] theorem buyAccrue_magnified :
    (buyAccrue env s u b).magnifiedDividendPerShare = s.magnifiedDividendPerShare := by
  unfold buyAccrue
  split <;> simp

@[simp] theorem buyAccrue_devAddress : (buyAccrue env s u b).devAddress = s.devAddress := by
  unfold buyAccrue
  split <;> simp

@[simp] theorem buySnap_totalBurned : (buySnap env s u).totalBurned = s.totalBurned := by
  unfold buySnap
  split <;> rfl

@[simp] theorem buySnap_tokensSold : (buySnap env s u).tokensSold = s.tokensSold := by
  unfold buySnap
  split <;> rfl

@[simp] theorem buySnap_usdcReserves : (buySnap env s u).usdcReserves = s.usdcReserves := by
  unfold buySnap
  split <;> rfl

@[simp] theorem buySnap_bal : (buySnap env s u).bal = s.bal := by
  unfold buySnap
  split <;> rfl

@[simp] theorem buySnap_magnified :
    (buySnap env s u).magnifiedDividendPerShare = s.magnifiedDividendPerShare := by
  unfold buySnap
  split <;> rfl

@[simp] theorem buySnap_devAddress : (buySnap env s u).devAddress = s.devAddress := by
  unfold buySnap
  split <;> rfl

end FrameLemmas

section OpFacts

variable {env : Env} {s s2 : ChainState} {src dst buyer sender user n amount msgValue newDev : Nat}

theorem taxed_ok_facts (h : handleTaxedTransfer env s src dst n = .ok s2) :
    s2.totalBurned = s.totalBurned ∧ s2.tokensSold = s.tokensSold
      ∧ s2.usdcReserves = s.usdcReserves
      ∧ s.magnifiedDividendPerShare ≤ s2.magnifiedDividendPerShare
      ∧ s2.devAddress = s.devAddress := by
  unfold handleTaxedTransfer at h
  split at h
  · exact absurd h (by simp)
  · dsimp only at h
    obtain ⟨c1, c2, c3, c4, c5, c6, c7⟩ :=
      @dexProbe_core env s src dst
    split at h
    · obtain ⟨f1, f2, f3, f4, f5, f6⟩ := ozTransfer_ok_frame h
      exact ⟨f1.trans c1, f2.trans c2, f3.trans c3, by rw [f4, c5], f5.trans c6⟩
    · split at h
      · exact absurd h (by simp)
      · next s1 heq =>
        split at h
        · exact absurd h (by simp)
        · next s3 heq2 =>
          obtain ⟨g1, g2, g3, g4, g5, g6⟩ := ozTransfer_ok_frame heq
          obtain ⟨i1, i2, i3, i4, i5, i6⟩ := transferIfNonzero_ok_frame heq2
          obtain ⟨j1, j2, j3, j4, j5, j6⟩ := transferIfNonzero_ok_frame h
          refine ⟨?_, ?_, ?_, ?_, ?_⟩
          · rw [j1, i1]
            simp only [distribute_totalBurned]
            rw [g1, c1]
          · rw [j2, i2]
            simp only [distribute_tokensSold]
            rw [g2, c2]
          · rw [j3, i3]
            simp only [distribute_usdcReserves]
            rw [g3, c3]
          · rw [j4, i4]
            calc s.magnifiedDividendPerShare
                = s1.magnifiedDividendPerShare := by rw [g4, c5]
              _ ≤ _ := distribute_magnified_le
          · rw [j5, i5]
            simp only [distribute_devAddress]
            rw [g5, c6]

theorem handleRefund_ok_facts {p : Nat} (h : handleRefund env s sender n = .ok (s2, p)) :
    p = tokensForRefund s.totalBurned n * (s.usdcReserves * 999 / 1000)
          / (TOTAL_SUPPLY - s.totalBurned - s.bal contractAddr + n)
      ∧ TOTAL_SUPPLY - s.totalBurned - s.bal contractAddr + n ≠ 0
      ∧ p ≤ s.usdcReserves
      ∧ s2.usdcReserves = s.usdcReserves - p
      ∧ s.magnifiedDividendPerShare ≤ s2.magnifiedDividendPerShare
      ∧ s2.devAddress = s.devAddress
      ∧ s2.totalBurned
          = s.totalBurned + min (BURNING_LIMIT - s.totalBurned) (refundBurnFee s.totalBurned n) := by
  unfold handleRefund at h
  split at h
  · exact absurd h (by simp)
  · split at h
    · exact absurd h (by simp)
    · dsimp only at h
      simp only [refundAccrual_totalBurned, refundAccrual_usdcReserves, refundAccrual_bal,
        refundAccrual_magnified, refundAccrual_devAddress] at h
      split at h
      · exact absurd h (by simp)
      · split at h
        · exact absurd h (by simp)
        · split at h
          · exact absurd h (by simp)
          · next hcirc =>
            split at h
            · exact absurd h (by simp)
            · next hpay =>
              split at h
              · exact absurd h (by simp)
              · next sB heqDev =>
                split at h
                · exact absurd h (by simp)
                · next sC heqBurn =>
                  cases h
                  obtain ⟨d1, d2, d3, d4, d5, d6⟩ := transferIfNonzero_ok_frame heqDev
                  obtain ⟨b1, b2, b3, b4⟩ := refundBurnStep_ok_frame heqBurn
                  refine ⟨rfl, hcirc, Nat.le_of_not_lt hpay, ?_, ?_, ?_, ?_⟩
                  · dsimp only
                    simp only [distribute_usdcReserves]
                    rw [b1, d3]
                    simp only [refundAccrual_usdcReserves]
                  · dsimp only
                    calc s.magnifiedDividendPerShare
                        = sC.magnifiedDividendPerShare := by
                          rw [b2, d4]
                          simp [refundAccrual_magnified]
                      _ ≤ _ := distribute_magnified_le
                  · dsimp only
                    simp only [distribute_devAddress]
                    rw [b3, d5]
                    simp [refundAccrual_devAddress]
                  · dsimp only
                    simp only [distribute_totalBurned]
                    rw [b4, d1]
                    simp only [refundAccrual_totalBurned]
                    have hbf :
                        (if refundBurnFee s.totalBurned n ≠ 0 ∧ s.totalBurned < BURNING_LIMIT
                          then min (BURNING_LIMIT - s.totalBurned) (refundBurnFee s.totalBurned n)
                          else 0)
                        = min (BURNING_LIMIT - s.totalBurned) (refundBurnFee s.totalBurned n) := by
                      unfold refundBurnFee
                      simp only [Nat.min_def]
                      split_ifs <;> omega
                    rw [hbf]

theorem buyInternal_ok_facts (h : buyInternal env s buyer n = .ok s2) :
    s2.totalBurned = s.totalBurned ∧ s2.usdcReserves = s.usdcReserves
      ∧ s.magnifiedDividendPerShare ≤ s2.magnifiedDividendPerShare
      ∧ s2.devAddress = s.devAddress := by
  unfold buyInternal at h
  dsimp only at h
  split at h
  · exact absurd h (by simp)
  · split at h
    · exact absurd h (by simp)
    · split at h
      · exact absurd h (by simp)
      · next s6 heq =>
        obtain ⟨f1, f2, f3, f4, f5, f6⟩ := ozTransfer_ok_frame heq
        obtain ⟨g1, g2, g3, g4, g5, g6⟩ := ozTransfer_ok_frame h
        refine ⟨?_, ?_, ?_, ?_⟩
        · rw [g1, f1]
          simp
        · rw [g3, f3]
          simp
        · rw [g4, f4]
          simp only [buySnap_magnified, buyAccrue_magnified]
          refine le_trans ?_ distribute_magnified_le
          simp
        · rw [g5, f5]
          simp

theorem buyOp_ok_facts (h : buyOp env s buyer msgValue = .ok s2) :
    s2.totalBurned = s.totalBurned
      ∧ s2.usdcReserves = s.usdcReserves + msgValue / 1000000000000
      ∧ s.magnifiedDividendPerShare ≤ s2.magnifiedDividendPerShare
      ∧ s2.devAddress = s.devAddress := by
  unfold buyOp at h
  dsimp only at h
  split at h
  · exact absurd h (by simp)
  · obtain ⟨f1, f2, f3, f4⟩ := buyInternal_ok_facts h
    exact ⟨f1, f2, f3, f4⟩

theorem claim_ok_facts (h : claimDividendsOp env s user = .ok s2) :
    s2.totalBurned = s.totalBurned ∧ s2.tokensSold = s.tokensSold
      ∧ s2.usdcReserves = s.usdcReserves
      ∧ s2.magnifiedDividendPerShare = s.magnifiedDividendPerShare
      ∧ s2.devAddress = s.devAddress := by
  unfold claimDividendsOp at h
  split at h
  · cases h
    exact ⟨rfl, rfl, rfl, rfl, rfl⟩
  · dsimp only at h
    split at h
    · obtain ⟨f1, f2, f3, f4, f5, f6⟩ := ozTransfer_ok_frame h
      refine ⟨?_, ?_, ?_, ?_, ?_⟩
      · rw [f1]
        simp
      · rw [f2]
        simp
      · rw [f3]
        simp
      · rw [f4]
        simp
      · rw [f5]
        simp
    · cases h
      exact ⟨by simp, by simp, by simp, by simp, by simp⟩

theorem setDev_ok_facts (h : setDevAddressOp s newDev = .ok s2) :
    s2.totalBurned = s.totalBurned ∧ s2.usdcReserves = s.usdcReserves
      ∧ s2.magnifiedDividendPerShare = s.magnifiedDividendPerShare := by
  unfold setDevAddressOp at h
  split at h
  · exact absurd h (by simp)
  · cases h
    exact ⟨rfl, rfl, rfl⟩

theorem exclude_ok_facts {e : Bool} (h : excludeFromFeeOp s user e = .ok s2) :
    s2.totalBurned = s.totalBurned ∧ s2.usdcReserves = s.usdcReserves
      ∧ s2.magnifiedDividendPerShare = s.magnifiedDividendPerShare := by
  unfold excludeFromFeeOp at h
  split at h
  · exact absurd h (by simp)
  · cases h
    exact ⟨rfl, rfl, rfl⟩

theorem updateBalances_ok_facts (h : updateBalances env s src dst n = .ok s2) :
    s.magnifiedDividendPerShare ≤ s2.magnifiedDividendPerShare
      ∧ s2.totalBurned = s.totalBurned
          + (if dst = contractAddr
             then min (BURNING_LIMIT - s.totalBurned) (refundBurnFee s.totalBurned n) else 0)
      ∧ (dst ≠ contractAddr → s2.usdcReserves = s.usdcReserves) := by
  unfold updateBalances at h
  split at h
  · exact absurd h (by simp)
  · split at h
    · exact absurd h (by simp)
    · split at h
      · exact absurd h (by simp)
      · split at h
        · next hdst =>
          split at h
          · exact absurd h (by simp)
          · next s1 heq =>
            split at h
            · exact absurd h (by simp)
            · next pr heq2 =>
              cases h
              obtain ⟨sr, q⟩ := pr
              obtain ⟨o1, o2, o3, o4, o5, o6⟩ := ozTransfer_ok_frame heq
              obtain ⟨r1, r2, r3, r4, r5, r6, r7⟩ := handleRefund_ok_facts heq2
              refine ⟨?_, ?_, ?_⟩
              · rw [← o4]
                exact r5
              · rw [if_pos hdst, r7, o1]
              · intro hne
                exact absurd hdst hne
        · next hdst =>
          rw [if_neg hdst]
          split at h
          · obtain ⟨o1, o2, o3, o4, o5, o6⟩ := ozTransfer_ok_frame h
            exact ⟨le_of_eq o4.symm, by omega, fun _ => o3⟩
          · obtain ⟨t1, t2, t3, t4, t5⟩ := taxed_ok_facts h
            exact ⟨t4, by omega, fun _ => t3⟩

theorem transferOp_ok_facts (h : transferOp env s src dst n = .ok s2) :
    s.magnifiedDividendPerShare ≤ s2.magnifiedDividendPerShare
      ∧ s2.totalBurned = s.totalBurned
          + (if dst = contractAddr
             then min (BURNING_LIMIT - s.totalBurned) (refundBurnFee s.totalBurned n) else 0)
      ∧ (dst ≠ contractAddr → s2.usdcReserves = s.usdcReserves) := by
  unfold transferOp at h
  dsimp only at h
  obtain ⟨u1, u2, u3⟩ := updateBalances_ok_facts h
  have e1 : ∀ (c : Prop) [Decidable c] (t : ChainState) (x : Nat),
      (if c then updateUserDividendTracking env t x else t).totalBurned = t.totalBurned := by
    intro c _ t x
    split <;> simp
  have e2 : ∀ (c : Prop) [Decidable c] (t : ChainState) (x : Nat),
      (if c then updateUserDividendTracking env t x else t).magnifiedDividendPerShare
        = t.magnifiedDividendPerShare := by
    intro c _ t x
    split <;> simp
  have e3 : ∀ (c : Prop) [Decidable c] (t : ChainState) (x : Nat),
      (if c then updateUserDividendTracking env t x else t).usdcReserves = t.usdcReserves := by
    intro c _ t x
    split <;> simp
  simp only [e1, e2, e3] at u1 u2 u3
  exact ⟨u1, u2, u3⟩

theorem step_ok_facts {op : Op} (h : step env s op = .ok s2) :
    s.magnifiedDividendPerShare ≤ s2.magnifiedDividendPerShare
      ∧ (s.totalBurned ≤ BURNING_LIMIT → s2.totalBurned ≤ BURNING_LIMIT) := by
  cases op with
  | buy buyer msgValue =>
    obtain ⟨f1, f2, f3, f4⟩ := buyOp_ok_facts h
    exact ⟨f3, by omega⟩
  | transfer src dst amount =>
    obtain ⟨f1, f2, f3⟩ := transferOp_ok_facts h
    refine ⟨f1, ?_⟩
    intro hle
    rw [f2]
    split
    · rw [Nat.min_def]
      split <;> omega
    · omega
  | claim user =>
    obtain ⟨f1, f2, f3, f4, f5⟩ := claim_ok_facts h
    exact ⟨le_of_eq f4.symm, by omega⟩
  | setDev newDev =>
    obtain ⟨f1, f2, f3⟩ := setDev_ok_facts h
    exact ⟨le_of_eq f3.symm, by omega⟩
  | setFeeExclusion account isExcluded =>
    obtain ⟨f1, f2, f3⟩ := exclude_ok_facts h
    exact ⟨le_of_eq f3.symm, by omega⟩

theorem reachable_burn_le {s : ChainState} (hr : Reachable env s) :
    s.totalBurned ≤ BURNING_LIMIT := by
  induction hr with
  | init owner dev => exact Nat.zero_le _
  | next t op t2 hr hstep ih => exact (step_ok_facts hstep).2 ih

end OpFacts

section Arith

@[simp] theorem isOk_error {α : Type} {e : Err} : (Except.error e : Except Err α).isOk = false := rfl

@[simp] theorem isOk_ok {α : Type} {t : α} : (Except.ok t : Except Err α).isOk = true := rfl

/-- The four refund fee shares never exceed the gross, so the `unchecked`
subtraction computing `tokensForRefund` cannot wrap. -/
theorem tokensForRefund_eq (tb amount : Nat) :
    tokensForRefund tb amount
      = amount - (refundDevFee amount + refundReflectionFee amount
          + refundBurnFee tb amount + refundReserveFee tb amount) := by
  unfold tokensForRefund wsub refundDevFee refundReflectionFee refundBurnFee refundReserveFee
    REFUND_DEV_FEE_BPS REFUND_REFLECTION_FEE_BPS
  split_ifs <;> omega

/-- The three ordinary-transfer fee shares never exceed the amount, so the
`unchecked` subtraction computing `netAmount` cannot wrap. -/
theorem transferNet_eq (amount : Nat) :
    wsub (wsub (wsub amount (amount * TRANSFER_DEV_FEE_BPS / 10000))
        (amount * TRANSFER_REFLECTION_FEE_BPS / 10000)) (amount * TRANSFER_RESERVE_FEE_BPS / 10000)
      = amount - amount * TRANSFER_DEV_FEE_BPS / 10000 - amount * TRANSFER_REFLECTION_FEE_BPS / 10000
          - amount * TRANSFER_RESERVE_FEE_BPS / 10000 := by
  unfold wsub TRANSFER_DEV_FEE_BPS TRANSFER_REFLECTION_FEE_BPS TRANSFER_RESERVE_FEE_BPS
  split_ifs <;> omega

theorem transferIfNonzero_ok_bal_src {t t2 : ChainState} {srcAddr dstAddr n : Nat}
    (hne : dstAddr ≠ srcAddr) (h : transferIfNonzero t srcAddr dstAddr n = .ok t2) :
    t2.bal srcAddr = t.bal srcAddr - n ∧ n ≤ t.bal srcAddr := by
  unfold transferIfNonzero at h
  split at h
  · unfold ozTransfer at h
    split at h
    · exact absurd h (by simp)
    · split at h
      · exact absurd h (by simp)
      · split at h
        · exact absurd h (by simp)
        · next hlt =>
          cases h
          constructor
          · simp [upd, Ne.symm hne]
          · omega
  · next hz =>
    cases h
    have : n = 0 := by omega
    omega

@[simp] theorem trackIte_totalBurned (c : Prop) [Decidable c] (env : Env) (t : ChainState)
    (x : Nat) :
    (if c then updateUserDividendTracking env t x else t).totalBurned = t.totalBurned := by
  split <;> simp

@[simp] theorem trackIte_usdcReserves (c : Prop) [Decidable c] (env : Env) (t : ChainState)
    (x : Nat) :
    (if c then updateUserDividendTracking env t x else t).usdcReserves = t.usdcReserves := by
  split <;> simp

@[simp] theorem trackIte_bal (c : Prop) [Decidable c] (env : Env) (t : ChainState) (x : Nat) :
    (if c then updateUserDividendTracking env t x else t).bal = t.bal := by
  split <;> simp

@[simp] theorem trackIte_magnified (c : Prop) [Decidable c] (env : Env) (t : ChainState)
    (x : Nat) :
    (if c then updateUserDividendTracking env t x else t).magnifiedDividendPerShare
      = t.magnifiedDividendPerShare := by
  split <;> simp

@[simp] theorem trackIte_devAddress (c : Prop) [Decidable c] (env : Env) (t : ChainState)
    (x : Nat) :
    (if c then updateUserDividendTracking env t x else t).devAddress = t.devAddress := by
  split <;> simp

@[simp] theorem trackIte_excluded (c : Prop) [Decidable c] (env : Env) (t : ChainState)
    (x : Nat) :
    (if c then updateUserDividendTracking env t x else t).excludedFromFee
      = t.excludedFromFee := by
  split <;> simp

/-- Between two wallet addresses the dex-swap probe is pure: no cache
write, negative answer. -/
theorem dexProbe_wallets {env : Env} {src dst : Nat} (hsrcC : isContract env src = false)
    (hdstC : isContract env dst = false) (t : ChainState) :
    dexProbe env t src dst = (false, t) := by
  unfold dexProbe
  dsimp only
  simp [hsrcC, hdstC]

/-- A transfer to the ledger's own address with a gross below the minimum
cannot succeed: `_handleRefund` rejects it before any computation. -/
theorem transfer_to_ledger_min_reject {env : Env} {s s2 : ChainState} {src amount : Nat}
    (hmin : amount < MINIMUM_PURCHASE)
    (hM : transferOp env s src contractAddr amount = .ok s2) : False := by
  unfold transferOp at hM
  dsimp only at hM
  unfold updateBalances at hM
  split at hM
  · exact absurd hM (by simp)
  · split at hM
    · exact absurd hM (by simp)
    · split at hM
      · exact absurd hM (by simp)
      · split at hM
        · split at hM
          · exact absurd hM (by simp)
          · next s1 heq =>
            split at hM
            · exact absurd hM (by simp)
            · next pr heq2 =>
              unfold handleRefund at heq2
              split at heq2 <;> exact absurd heq2 (by simp)
        · next hne => exact hne rfl

end Arith

/-- Claim C2: on a refund of a gross `amount` (the ledger's balance already
holding it), `tokensForRefund` is the gross minus the four fee shares; the
payout is `tokensForRefund × (reserves × 999 / 1000) / ((totalSupply −
contractHeldBalance) + gross)`; the reserve is decremented by exactly the
payout; the refund is rejected when the circulating supply is zero; and no
accepted refund pays out more than the reserve (the contrapositive of the
source's `usdcReserves < usdcToUser` rejection — the direct premise is
unsatisfiable, since the payout formula is bounded by 99.9% of the
reserve, so the check can only be stated through its success face). -/
theorem refund_economics (env : Env) (s : ChainState) (sender amount : Nat) :
    tokensForRefund s.totalBurned amount
        = amount - (refundDevFee amount + refundReflectionFee amount
            + refundBurnFee s.totalBurned amount + refundReserveFee s.totalBurned amount)
      ∧ ((handleRefund env s sender amount).isOk = true →
          refundPaid (handleRefund env s sender amount)
              = tokensForRefund s.totalBurned amount * (s.usdcReserves * 999 / 1000)
                  / (TOTAL_SUPPLY - s.totalBurned - s.bal contractAddr + amount)
            ∧ TOTAL_SUPPLY - s.totalBurned - s.bal contractAddr + amount ≠ 0
            ∧ refundPaid (handleRefund env s sender amount) ≤ s.usdcReserves
            ∧ (refundState (handleRefund env s sender amount) s).usdcReserves
                = s.usdcReserves - refundPaid (handleRefund env s sender amount))
      ∧ (TOTAL_SUPPLY - s.totalBurned - s.bal contractAddr + amount = 0 →
          (handleRefund env s sender amount).isOk = false) := by
  refine ⟨tokensForRefund_eq s.totalBurned amount, ?_, ?_⟩
  · intro hok
    cases hM : handleRefund env s sender amount with
    | error e =>
      rw [hM] at hok
      exact absurd hok (by simp)
    | ok pr =>
      obtain ⟨sr, q⟩ := pr
      obtain ⟨r1, r2, r3, r4, r5, r6, r7⟩ := handleRefund_ok_facts hM
      simp only [refundPaid, refundState]
      exact ⟨r1, r2, r3, r4⟩
  · intro hz
    cases hM : handleRefund env s sender amount with
    | error e => simp
    | ok pr =>
      obtain ⟨sr, q⟩ := pr
      obtain ⟨r1, r2, r3, r4, r5, r6, r7⟩ := handleRefund_ok_facts hM
      exact absurd hz r2

/-- Claim C2 witness: a concrete successful refund of 10^6 units against a
10^12 reserve. -/
theorem refund_economics_witness :
    (refundPaid (handleRefund walletEnv refundReadyState 4 1000000)
          = tokensForRefund refundReadyState.totalBurned 1000000
              * (refundReadyState.usdcReserves * 999 / 1000)
              / (TOTAL_SUPPLY - refundReadyState.totalBurned
                  - refundReadyState.bal contractAddr + 1000000)
        ∧ TOTAL_SUPPLY - refundReadyState.totalBurned
            - refundReadyState.bal contractAddr + 1000000 ≠ 0
        ∧ refundPaid (handleRefund walletEnv refundReadyState 4 1000000)
            ≤ refundReadyState.usdcReserves
        ∧ (refundState (handleRefund walletEnv refundReadyState 4 1000000)
              refundReadyState).usdcReserves
            = refundReadyState.usdcReserves
              - refundPaid (handleRefund walletEnv refundReadyState 4 1000000))
      ∧ (handleRefund walletEnv (initState 2 3) 4 0).isOk = false :=
  ⟨(refund_economics walletEnv refundReadyState 4 1000000).2.1 (by decide),
   (refund_economics walletEnv (initState 2 3) 4 0).2.2 (by decide)⟩

/-- Claim C4: in every reachable state `totalBurned ≤ BURNING_LIMIT`; a
successful refund advances `totalBurned` by the burn fee capped to the
remaining headroom (never rejected for overshooting it); and once the
limit is reached the burn fee is 0 while the reserve fee becomes the full
150 / 100000 share. -/
theorem burn_limit_invariant (env : Env) (s : ChainState) (sender amount : Nat) :
    (Reachable env s → s.totalBurned ≤ BURNING_LIMIT)
      ∧ ((handleRefund env s sender amount).isOk = true →
          (refundState (handleRefund env s sender amount) s).totalBurned
            = s.totalBurned
              + min (BURNING_LIMIT - s.totalBurned) (refundBurnFee s.totalBurned amount))
      ∧ (BURNING_LIMIT ≤ s.totalBurned →
          refundBurnFee s.totalBurned amount = 0
            ∧ refundReserveFee s.totalBurned amount = amount * 150 / 100000) := by
  refine ⟨fun hr => reachable_burn_le hr, ?_, ?_⟩
  · intro hok
    cases hM : handleRefund env s sender amount with
    | error e =>
      rw [hM] at hok
      exact absurd hok (by simp)
    | ok pr =>
      obtain ⟨sr, q⟩ := pr
      obtain ⟨r1, r2, r3, r4, r5, r6, r7⟩ := handleRefund_ok_facts hM
      simp only [refundState]
      exact r7
  · intro hge
    have hnl : ¬s.totalBurned < BURNING_LIMIT := by omega
    unfold refundBurnFee refundReserveFee
    rw [if_neg hnl, if_neg hnl]
    exact ⟨rfl, rfl⟩

/-- Claim C4 witness: the invariant holds at deployment; a refund from 100
units below the limit is accepted with its 750-unit burn fee capped to the
100-unit headroom; and at the limit the fee split matches the post-limit
table. -/
theorem burn_limit_invariant_witness :
    (initState 2 3).totalBurned ≤ BURNING_LIMIT
      ∧ (refundState (handleRefund walletEnv burnCapState 4 1000000) burnCapState).totalBurned
          = burnCapState.totalBurned
            + min (BURNING_LIMIT - burnCapState.totalBurned)
                (refundBurnFee burnCapState.totalBurned 1000000)
      ∧ (refundBurnFee atLimitState.totalBurned 1000000 = 0
          ∧ refundReserveFee atLimitState.totalBurned 1000000 = 1000000 * 150 / 100000) :=
  ⟨(burn_limit_invariant walletEnv (initState 2 3) 4 1000000).1 (Reachable.init 2 3),
   (burn_limit_invariant walletEnv burnCapState 4 1000000).2.1 (by decide),
   (burn_limit_invariant walletEnv atLimitState 4 1000000).2.2 (by decide)⟩

/-- Claim C7: `magnifiedDividendPerShare` never decreases: every successful
operation (buy, refund, transfer, claim, admin) leaves it at least as
large as before, and a reverted one leaves the state untouched. -/
theorem magnified_monotone (env : Env) (s : ChainState) (op : Op)
    (h : (step env s op).isOk = true) :
    s.magnifiedDividendPerShare ≤ (okState (step env s op) s).magnifiedDividendPerShare := by
  cases hM : step env s op with
  | error e =>
    rw [hM] at h
    exact absurd h (by simp)
  | ok s2 =>
    exact (step_ok_facts hM).1

/-- Claim C7 witness: the accumulator does not decrease across a concrete
taxed transfer (where it strictly grows). -/
theorem magnified_monotone_witness :
    taxedTransferState.magnifiedDividendPerShare
      ≤ (okState (step walletEnv taxedTransferState (.transfer 4 7 (10 ^ 12)))
          taxedTransferState).magnifiedDividendPerShare :=
  magnified_monotone walletEnv taxedTransferState (.transfer 4 7 (10 ^ 12)) (by decide)

/-- Claim C8 counterexample: address 9 resolves to an automated contract,
yet each interrogation of the broad classification — including any after
the first, since `isContract` is a pure view that consults no cache —
issues its two token-identity probes again.  The probe count per repeat
interaction is 2, not 0, refuting "once classified, never re-probed" for
the broad classification. -/
theorem classifier_reprobe_counterexample :
    isContract pairEnv 9 = true
      ∧ isContractProbes pairEnv 9 = 2
      ∧ isContractProbes pairEnv 9 ≠ 0 := by decide

/-- Claim C8 (amended): only the trading-pair sub-classification is
write-once memoized — a cached address (positive or negative) is answered
with zero probes and no cache mutation — while the broad classification
probes afresh (at least the two token probes) on every call to an address
with code. -/
theorem pair_cache_write_once (env : Env) (s : ChainState) (addr : Nat) :
    (env.codeLen addr ≠ 0 → s.liquidityPairCache addr = true →
        isLiquidityPair env s addr = (true, s) ∧ isLiquidityPairProbes env s addr = 0)
      ∧ (env.codeLen addr ≠ 0 → s.liquidityPairCache addr = false →
          s.notLiquidityPairCache addr = true →
          isLiquidityPair env s addr = (false, s) ∧ isLiquidityPairProbes env s addr = 0)
      ∧ (env.codeLen addr ≠ 0 → 2 ≤ isContractProbes env addr) := by
  refine ⟨?_, ?_, ?_⟩
  · intro hcode hcache
    unfold isLiquidityPair isLiquidityPairProbes
    rw [if_neg hcode, if_neg hcode, if_pos hcache, if_pos hcache]
    exact ⟨rfl, rfl⟩
  · intro hcode hpos hneg
    unfold isLiquidityPair isLiquidityPairProbes
    rw [if_neg hcode, if_neg hcode]
    simp only [hpos, Bool.false_eq_true, if_false, hneg, if_true]
    constructor <;> trivial
  · intro hcode
    unfold isContractProbes
    rw [if_neg hcode]
    exact Nat.le_add_right 2 _

/-- Claim C8 witness: a positively cached pair address is answered from the
cache with zero probes, and the broad classifier still issues at least two
probes for it. -/
theorem pair_cache_write_once_witness :
    (isLiquidityPair pairEnv cachedPairState 9 = (true, cachedPairState)
        ∧ isLiquidityPairProbes pairEnv cachedPairState 9 = 0)
      ∧ 2 ≤ isContractProbes pairEnv 9 :=
  ⟨(pair_cache_write_once pairEnv cachedPairState 9).1 (by decide) (by decide),
   (pair_cache_write_once pairEnv cachedPairState 9).2.2 (by decide)⟩

/-- Claim C10: for an address classified as an automated contract,
`claimDividends` succeeds with the state exactly unchanged, and the
`pendingDividends` view returns 0 regardless of any stored accumulated
amount. -/
theorem contract_dividend_exclusion (env : Env) (s : ChainState) (user : Nat)
    (h : isContract env user = true) :
    claimDividendsOp env s user = .ok s ∧ pendingDividends env s user = 0 := by
  constructor
  · unfold claimDividendsOp
    rw [if_pos h]
  · unfold pendingDividends
    rw [if_pos h]

/-- Claim C10 witness: address 9 (a pair contract) with a stored
accumulated amount of 5 still claims as a no-op and views 0 pending. -/
theorem contract_dividend_exclusion_witness :
    claimDividendsOp pairEnv accumState 9 = .ok accumState
      ∧ pendingDividends pairEnv accumState 9 = 0 :=
  contract_dividend_exclusion pairEnv accumState 9 (by decide)

/-- Claim C6: a buy or refund strictly below the 0.1-unit minimum is
rejected, an accepted refund never pays out more than the reserve (the
success face of the source's `usdcReserves < usdcToUser` rejection, whose
direct premise is unsatisfiable because the payout is bounded by 99.9% of
the reserve), and any rejected operation leaves the state entirely
unchanged (the revert). -/
theorem rejection_no_mutation (env : Env) (s : ChainState)
    (buyer msgValue src sender amount : Nat) (op : Op) :
    (msgValue / 1000000000000 < MINIMUM_PURCHASE →
        (step env s (.buy buyer msgValue)).isOk = false)
      ∧ (amount < MINIMUM_PURCHASE →
          (step env s (.transfer src contractAddr amount)).isOk = false)
      ∧ ((handleRefund env s sender amount).isOk = true →
          refundPaid (handleRefund env s sender amount) ≤ s.usdcReserves)
      ∧ ((step env s op).isOk = false → okState (step env s op) s = s) := by
  refine ⟨?_, ?_, ?_, ?_⟩
  · intro hbuy
    show (buyOp env s buyer msgValue).isOk = false
    unfold buyOp
    dsimp only
    rw [if_pos hbuy]
    rfl
  · intro hmin
    cases hM : step env s (.transfer src contractAddr amount) with
    | error e => rfl
    | ok s2 => exact absurd (transfer_to_ledger_min_reject hmin hM) (by simp)
  · intro hok
    cases hM : handleRefund env s sender amount with
    | error e =>
      rw [hM] at hok
      exact absurd hok (by simp)
    | ok pr =>
      obtain ⟨sr, q⟩ := pr
      exact (handleRefund_ok_facts hM).2.2.1
  · intro hfail
    cases hM : step env s op with
    | error e => rfl
    | ok s2 =>
      rw [hM] at hfail
      exact absurd hfail (by simp)

/-- Claim C6 witness: a 0.05-unit buy and a 0.05-unit refund are rejected,
a concrete accepted refund stays within the reserve, and a rejected
operation returns the pre-state. -/
theorem rejection_no_mutation_witness :
    (step walletEnv taxedTransferState (.buy 7 (5 * 10 ^ 16))).isOk = false
      ∧ (step walletEnv taxedTransferState (.transfer 4 contractAddr 50000)).isOk = false
      ∧ refundPaid (handleRefund walletEnv refundReadyState 4 1000000)
          ≤ refundReadyState.usdcReserves
      ∧ okState (step walletEnv taxedTransferState (.buy 7 (5 * 10 ^ 16))) taxedTransferState
          = taxedTransferState :=
  ⟨(rejection_no_mutation walletEnv taxedTransferState 7 (5 * 10 ^ 16) 4 4 50000
      (.buy 7 (5 * 10 ^ 16))).1 (by decide),
   (rejection_no_mutation walletEnv taxedTransferState 7 (5 * 10 ^ 16) 4 4 50000
      (.buy 7 (5 * 10 ^ 16))).2.1 (by decide),
   (rejection_no_mutation walletEnv refundReadyState 7 (5 * 10 ^ 16) 4 4 1000000
      (.buy 7 (5 * 10 ^ 16))).2.2.1 (by decide),
   (rejection_no_mutation walletEnv taxedTransferState 7 (5 * 10 ^ 16) 4 4 50000
      (.buy 7 (5 * 10 ^ 16))).2.2.2 (by decide)⟩

/-- The retained-fee computation of a wallet-to-wallet taxed transfer
through `_update`: the reserve and reflection fee shares stay in the
ledger's own token balance. -/
theorem updateBalances_retention {env : Env} {t s2 : ChainState} {src dst amount : Nat}
    (hsrcC : isContract env src = false) (hdstC : isContract env dst = false)
    (hx1 : t.excludedFromFee src = false) (hx2 : t.excludedFromFee dst = false)
    (hsc : src ≠ contractAddr) (hdc : dst ≠ contractAddr)
    (hdev : t.devAddress ≠ contractAddr)
    (hM : updateBalances env t src dst amount = .ok s2) :
    s2.bal contractAddr = t.bal contractAddr
      + (amount * TRANSFER_RESERVE_FEE_BPS / 10000
          + amount * TRANSFER_REFLECTION_FEE_BPS / 10000) := by
  unfold updateBalances at hM
  by_cases hs0 : src = zeroAddr
  · rw [if_pos hs0] at hM
    exact absurd hM (by simp)
  · rw [if_neg hs0] at hM
    by_cases hd0 : dst = zeroAddr
    · rw [if_pos hd0] at hM
      exact absurd hM (by simp)
    · rw [if_neg hd0] at hM
      by_cases ha0 : amount = 0
      · rw [if_pos ha0] at hM
        exact absurd hM (by simp)
      · rw [if_neg ha0, if_neg hdc,
          if_neg (by simp [hx1, hx2] :
            ¬(t.excludedFromFee src || t.excludedFromFee dst) = true)] at hM
        unfold handleTaxedTransfer at hM
        by_cases hba : t.bal src < amount
        · rw [if_pos hba] at hM
          exact absurd hM (by simp)
        · rw [if_neg hba] at hM
          dsimp only at hM
          rw [dexProbe_wallets hsrcC hdstC] at hM
          simp only [Bool.false_eq_true, if_false] at hM
          split at hM
          · exact absurd hM (by simp)
          · next s1 heq =>
            split at hM
            · exact absurd hM (by simp)
            · next s3 heq2 =>
              have hbal1 : s1.bal contractAddr = t.bal contractAddr + amount := by
                rw [ozTransfer_ok_bal heq]
                simp [upd, Ne.symm hsc]
              obtain ⟨hb3, hle3⟩ := transferIfNonzero_ok_bal_src hdc heq2
              simp only [distribute_bal] at hb3 hle3
              rw [hbal1] at hb3 hle3
              have hdev3 : s3.devAddress ≠ contractAddr := by
                rw [(transferIfNonzero_ok_frame heq2).2.2.2.2.1]
                simp only [distribute_devAddress]
                rw [(ozTransfer_ok_frame heq).2.2.2.2.1]
                exact hdev
              obtain ⟨hbf, hlef⟩ := transferIfNonzero_ok_bal_src hdev3 hM
              rw [hb3] at hbf hlef
              rw [transferNet_eq] at hbf hle3 hlef
              simp only [TRANSFER_DEV_FEE_BPS, TRANSFER_REFLECTION_FEE_BPS,
                TRANSFER_RESERVE_FEE_BPS] at hbf hle3 hlef ⊢
              omega

/-- Lift of `updateBalances_retention` through the `_transfer` override's
dividend-tracking prologue. -/
theorem taxed_retention {env : Env} {s s2 : ChainState} {src dst amount : Nat}
    (hsrcC : isContract env src = false) (hdstC : isContract env dst = false)
    (hx1 : s.excludedFromFee src = false) (hx2 : s.excludedFromFee dst = false)
    (hsc : src ≠ contractAddr) (hdc : dst ≠ contractAddr)
    (hdev : s.devAddress ≠ contractAddr)
    (hM : transferOp env s src dst amount = .ok s2) :
    s2.bal contractAddr = s.bal contractAddr
      + (amount * TRANSFER_RESERVE_FEE_BPS / 10000
          + amount * TRANSFER_REFLECTION_FEE_BPS / 10000) := by
  unfold transferOp at hM
  dsimp only at hM
  have h := updateBalances_retention hsrcC hdstC (by simp [hx1]) (by simp [hx2]) hsc hdc
    (by simp [hdev]) hM
  simpa using h

/-- Claim C9: the backing reserve changes only through buy (by exactly the
converted deposit) and refund (by exactly the payout, never past zero);
taxed transfers and dividend claims leave it unchanged, the reserve fee of
an ordinary transfer being retained as tokens in the ledger's own
balance. -/
theorem reserve_frame (env : Env) (s : ChainState)
    (src dst amount user buyer msgValue sender : Nat) :
    (dst ≠ contractAddr → (step env s (.transfer src dst amount)).isOk = true →
        (okState (step env s (.transfer src dst amount)) s).usdcReserves = s.usdcReserves)
      ∧ ((step env s (.claim user)).isOk = true →
          (okState (step env s (.claim user)) s).usdcReserves = s.usdcReserves)
      ∧ ((step env s (.buy buyer msgValue)).isOk = true →
          (okState (step env s (.buy buyer msgValue)) s).usdcReserves
            = s.usdcReserves + msgValue / 1000000000000)
      ∧ ((handleRefund env s sender amount).isOk = true →
          (refundState (handleRefund env s sender amount) s).usdcReserves
              = s.usdcReserves - refundPaid (handleRefund env s sender amount)
            ∧ refundPaid (handleRefund env s sender amount) ≤ s.usdcReserves)
      ∧ (isContract env src = false → isContract env dst = false →
          s.excludedFromFee src = false → s.excludedFromFee dst = false →
          src ≠ contractAddr → dst ≠ contractAddr → s.devAddress ≠ contractAddr →
          (step env s (.transfer src dst amount)).isOk = true →
          (okState (step env s (.transfer src dst amount)) s).bal contractAddr
            = s.bal contractAddr
              + (amount * TRANSFER_RESERVE_FEE_BPS / 10000
                  + amount * TRANSFER_REFLECTION_FEE_BPS / 10000)) := by
  refine ⟨?_, ?_, ?_, ?_, ?_⟩
  · intro hdc hok
    cases hM : step env s (.transfer src dst amount) with
    | error e =>
      rw [hM] at hok
      exact absurd hok (by simp)
    | ok s2 => exact (transferOp_ok_facts hM).2.2 hdc
  · intro hok
    cases hM : step env s (.claim user) with
    | error e =>
      rw [hM] at hok
      exact absurd hok (by simp)
    | ok s2 => exact (claim_ok_facts hM).2.2.1
  · intro hok
    cases hM : step env s (.buy buyer msgValue) with
    | error e =>
      rw [hM] at hok
      exact absurd hok (by simp)
    | ok s2 => exact (buyOp_ok_facts hM).2.1
  · intro hok
    cases hM : handleRefund env s sender amount with
    | error e =>
      rw [hM] at hok
      exact absurd hok (by simp)
    | ok pr =>
      obtain ⟨sr, q⟩ := pr
      obtain ⟨r1, r2, r3, r4, r5, r6, r7⟩ := handleRefund_ok_facts hM
      exact ⟨r4, r3⟩
  · intro h1 h2 h3 h4 h5 h6 h7 hok
    cases hM : step env s (.transfer src dst amount) with
    | error e =>
      rw [hM] at hok
      exact absurd hok (by simp)
    | ok s2 => exact taxed_retention h1 h2 h3 h4 h5 h6 h7 hM

/-- Claim C9 witness: concrete checks of all five frame conditions — a
taxed transfer and a claim leave the reserve unchanged, a first buy adds
exactly the converted deposit, a refund subtracts exactly its payout, and
the taxed transfer retains reserve + reflection fees in the ledger's
balance. -/
theorem reserve_frame_witness :
    (okState (step walletEnv taxedTransferState (.transfer 4 7 (10 ^ 12)))
          taxedTransferState).usdcReserves = taxedTransferState.usdcReserves
      ∧ (okState (step walletEnv taxedTransferState (.claim 4))
            taxedTransferState).usdcReserves = taxedTransferState.usdcReserves
      ∧ (okState (step walletEnv (initState 2 3) (.buy 7 (10 ^ 18)))
            (initState 2 3)).usdcReserves = (initState 2 3).usdcReserves + 10 ^ 18 / 1000000000000
      ∧ ((refundState (handleRefund walletEnv refundReadyState 4 1000000)
              refundReadyState).usdcReserves
            = refundReadyState.usdcReserves
              - refundPaid (handleRefund walletEnv refundReadyState 4 1000000)
          ∧ refundPaid (handleRefund walletEnv refundReadyState 4 1000000)
              ≤ refundReadyState.usdcReserves)
      ∧ (okState (step walletEnv taxedTransferState (.transfer 4 7 (10 ^ 12)))
            taxedTransferState).bal contractAddr
          = taxedTransferState.bal contractAddr
            + (10 ^ 12 * TRANSFER_RESERVE_FEE_BPS / 10000
                + 10 ^ 12 * TRANSFER_REFLECTION_FEE_BPS / 10000) :=
  ⟨(reserve_frame walletEnv taxedTransferState 4 7 (10 ^ 12) 4 7 (10 ^ 18) 4).1
      (by decide) (by decide),
   (reserve_frame walletEnv taxedTransferState 4 7 (10 ^ 12) 4 7 (10 ^ 18) 4).2.1 (by decide),
   (reserve_frame walletEnv (initState 2 3) 4 7 (10 ^ 12) 4 7 (10 ^ 18) 4).2.2.1 (by decide),
   (reserve_frame walletEnv refundReadyState 4 7 1000000 4 7 (10 ^ 18) 4).2.2.2.1 (by decide),
   (reserve_frame walletEnv taxedTransferState 4 7 (10 ^ 12) 4 7 (10 ^ 18) 4).2.2.2.2
      (by decide) (by decide) (by decide) (by decide) (by decide) (by decide) (by decide)
      (by decide)⟩

/-- Claim C3 counterexample: on the first-ever buy of 1,000,000 six-decimal
units the accumulator does not increase by `1000 × MAGNITUDE /
circulatingOutsideContractAfterBuy` — it stays 0, because the reflection
fee is distributed before any tokens have left the ledger, while the
outside circulation is still zero — and the ledger's own balance drops by
998,000 (dev fee + user tokens), not by 1,000,000 (the reserve and
reflection fee tokens never leave it). -/
theorem first_buy_counterexample :
    (okState (step walletEnv (initState 2 3) (.buy 7 (10 ^ 18)))
          (initState 2 3)).magnifiedDividendPerShare = 0
      ∧ circulatingOf (okState (step walletEnv (initState 2 3) (.buy 7 (10 ^ 18)))
          (initState 2 3)) = 998000
      ∧ 1000 * MAGNITUDE / 998000 ≠ 0
      ∧ (okState (step walletEnv (initState 2 3) (.buy 7 (10 ^ 18)))
            (initState 2 3)).bal contractAddr = TOTAL_SUPPLY - 998000
      ∧ TOTAL_SUPPLY - 998000 ≠ TOTAL_SUPPLY - 1000000 := by decide

/-- Claim C3 (amended): the first-ever buy of 1,000,000 units at the 1:1
base price purchases 1,000,000 tokens, takes dev 500 / reserve 1,000 /
reflection 1,000, credits the buyer 997,500, sets the reserve to
1,000,000, reduces the ledger's own balance by 998,000, and leaves
`magnifiedDividendPerShare` unchanged at 0 (the reflection fee is
distributed while the circulating supply is still zero). -/
theorem first_buy_post_state :
    (step walletEnv (initState 2 3) (.buy 7 (10 ^ 18))).isOk = true
      ∧ 10 ^ 18 / 1000000000000 = 1000000
      ∧ getTokensForUsdc { initState 2 3 with usdcReserves := 1000000 } 1000000 0 = 1000000
      ∧ 1000000 * BUY_DEV_FEE_BPS / 10000 = 500
      ∧ 1000000 * BUY_RESERVE_FEE_BPS / 10000 = 1000
      ∧ 1000000 * BUY_REFLECTION_FEE_BPS / 10000 = 1000
      ∧ (okState (step walletEnv (initState 2 3) (.buy 7 (10 ^ 18)))
            (initState 2 3)).bal 7 = 997500
      ∧ (okState (step walletEnv (initState 2 3) (.buy 7 (10 ^ 18)))
            (initState 2 3)).usdcReserves = 1000000
      ∧ (okState (step walletEnv (initState 2 3) (.buy 7 (10 ^ 18)))
            (initState 2 3)).bal 3 = 500
      ∧ (okState (step walletEnv (initState 2 3) (.buy 7 (10 ^ 18)))
            (initState 2 3)).bal contractAddr = TOTAL_SUPPLY - 998000
      ∧ (okState (step walletEnv (initState 2 3) (.buy 7 (10 ^ 18)))
            (initState 2 3)).tokensSold = 1000000
      ∧ (okState (step walletEnv (initState 2 3) (.buy 7 (10 ^ 18)))
            (initState 2 3)).magnifiedDividendPerShare = 0 := by decide

/-- Claim C5, evaluated at the failing input: in `taxedTransferState` the
transfer of 10^12 units from wallet 4 to the empty wallet 7 succeeds; the
only dividend distribution during it is its own reflection fee (the
accumulator goes from 0 to exactly `10^9 × MAGNITUDE / (3 × 10^12)`); yet
wallet 7 — which held nothing and had nothing pending before — ends with
strictly positive pending dividends, earned on the net tokens received
from that same transfer's reflection fee.  The recipient's snapshot is
taken before the distribution, so distributing before crediting does not
prevent the earning the code's own comment (source lines 436-437) and the
claim assert it prevents. -/
theorem recipient_earns_own_reflection_fee :
    (step walletEnv taxedTransferState (.transfer 4 7 (10 ^ 12))).isOk = true
      ∧ taxedTransferState.bal 7 = 0
      ∧ taxedTransferState.accumulatedDividends 7 = 0
      ∧ pendingDividends walletEnv taxedTransferState 7 = 0
      ∧ taxedTransferState.magnifiedDividendPerShare = 0
      ∧ (okState (step walletEnv taxedTransferState (.transfer 4 7 (10 ^ 12)))
            taxedTransferState).magnifiedDividendPerShare
          = 10 ^ 9 * MAGNITUDE / (3 * 10 ^ 12)
      ∧ 0 < pendingDividends walletEnv
          (okState (step walletEnv taxedTransferState (.transfer 4 7 (10 ^ 12)))
            taxedTransferState) 7 := by decide

end DMF
